/-
Verification of the odds-snapshot repository:
- `backfill_snapshot_timestamps.py` (filename-based timestamp inference and
  CSV backfill orchestration),
- `fetch_odds.py` and `fetch_historical_odds.py` (per-game odds extraction).

The shallow embedding models:
- filenames as `List Char`, with the three anchored regexes of
  `backfill_snapshot_timestamps.py` implemented as deterministic character
  parsers (every capture group of the regexes has a fixed length except the
  single `[^_]+` label group, which must stop at the first underscore, so
  the parsers below are extensionally equal to the regex matches);
- a `pathlib.Path` as its list of parts (the final part is `Path.name`);
- a CSV file (as seen through `csv.DictReader` / `csv.DictWriter`) as an
  optional header plus rows, where a row is an association list from field
  name to an optional string (`none` models Python `None` for short rows);
- the Odds API JSON objects as structures following the spec data model:
  an outcome carries a required `price` (held opaquely as a string) and an
  optional `point`; Python dict construction is last-write-wins insertion;
- Python dict subscription (`d[k]`, which can raise `KeyError`) as an
  `Option`-valued lookup, so `parse_game_odds` returns `Option Row` and
  totality (no exception) is a provable statement.
-/
import Mathlib

namespace OddsRepo

/-! ## Generic list helpers used by the embedding -/

/-- `stripLit lit s` strips the literal prefix `lit` from `s`; models the
anchored literal part of a regex match. -/
def stripLit : List Char → List Char → Option (List Char)
  | [], s => some s
  | _ :: _, [] => none
  | c :: cs, x :: xs => if x = c then stripLit cs xs else none

/-- Last element of a list of path parts, with `""` for an empty path;
models `pathlib.Path.name` (the final path component). -/
def lastPart : List String → String
  | [] => ""
  | [x] => x
  | _ :: x :: rest => lastPart (x :: rest)

/-- Split a character list at its first underscore; models how the regex
fragment `[^_]+_` must consume characters (the class cannot cross an
underscore, so the label group always ends at the first one). -/
def splitUnd : List Char → Option (List Char × List Char)
  | [] => none
  | c :: rest =>
    if c = '_' then some ([], rest)
    else
      match splitUnd rest with
      | some (a, b) => some (c :: a, b)
      | none => none

/-! ## Timestamp Inferencer (`backfill_snapshot_timestamps.py`, lines 27-47) -/

/-- Character-level test for the regex fragment `\d{4}-\d{2}-\d{2}`
(digits modelled as ASCII digits, the only ones the repository produces). -/
def dateChars (l : List Char) : Bool :=
  match l with
  | [a, b, c, d, e, f, g, h, i, j] =>
    a.isDigit && b.isDigit && c.isDigit && d.isDigit && e = '-' &&
    f.isDigit && g.isDigit && h = '-' && i.isDigit && j.isDigit
  | _ => false

/-- Character-level test for the regex fragment `\d{8}T\d{6}Z`. -/
def tsChars (l : List Char) : Bool :=
  match l with
  | [a, b, c, d, e, f, g, h, t, i, j, k, m, n, p, z] =>
    a.isDigit && b.isDigit && c.isDigit && d.isDigit &&
    e.isDigit && f.isDigit && g.isDigit && h.isDigit &&
    t = 'T' &&
    i.isDigit && j.isDigit && k.isDigit && m.isDigit && n.isDigit && p.isDigit &&
    z = 'Z'
  | _ => false

/-- `TIMESTAMPED_RE = ^odds_(\d{4}-\d{2}-\d{2})_[^_]+_(\d{8}T\d{6}Z)\.csv$`
(line 28), returning the two capture groups.  Every piece of the pattern has
a fixed length except `[^_]+`, which must end at the first underscore, so
this deterministic parser is extensionally the regex full-match. -/
def matchTimestamped (name : List Char) : Option (List Char × List Char) :=
  match stripLit ("odds_".data) name with
  | none => none
  | some r1 =>
    let d := r1.take 10
    if dateChars d then
      match r1.drop 10 with
      | '_' :: r2 =>
        match splitUnd r2 with
        | some (label, r3) =>
          if label.isEmpty then none
          else
            let t := r3.take 16
            if tsChars t && (r3.drop 16 = ".csv".data) then some (d, t) else none
        | none => none
      | _ => none
    else none

/-- `HISTORICAL_DATE_RE` and `PLAIN_DATE_RE` are the same regex
`^odds_(\d{4}-\d{2}-\d{2})\.csv$` (lines 27 and 29), returning the date
capture group. -/
def matchBareDate (name : List Char) : Option (List Char) :=
  match stripLit ("odds_".data) name with
  | none => none
  | some r =>
    let d := r.take 10
    if dateChars d && (r.drop 10 = ".csv".data) then some d else none

/-- Python `f"{n:02d}"` for a non-negative hour. -/
def pad2 (n : Nat) : String :=
  if n < 10 then "0" ++ toString n else toString n

/-- Slice `raw[a:b]` of a character list, as a string. -/
def substr (raw : List Char) (a b : Nat) : String :=
  String.mk ((raw.drop a).take (b - a))

/-- Line 37: reformat the compact `YYYYMMDDTHHMMSSZ` group into canonical
`YYYY-MM-DDTHH:MM:SSZ`. -/
def formatCompactTs (raw : List Char) : String :=
  substr raw 0 4 ++ "-" ++ substr raw 4 6 ++ "-" ++ substr raw 6 8 ++ "T" ++
  substr raw 9 11 ++ ":" ++ substr raw 11 13 ++ ":" ++ substr raw 13 15 ++ "Z"

/-- `infer_snapshot_timestamp` (lines 32-47).  The path is its list of parts
(`path.name` is the last part; `"historical" in path.parts` is list
membership).  `HISTORICAL_DATE_RE` and `PLAIN_DATE_RE` being the same
pattern, lines 39-45 reduce to one bare-date match whose result depends on
the directory test. -/
def infer_snapshot_timestamp (pathParts : List String) (historical_hour_utc : Nat) : String :=
  let name := (lastPart pathParts).data
  match matchTimestamped name with
  | some (_, raw) => formatCompactTs raw
  | none =>
    match matchBareDate name with
    | some d =>
      if "historical" ∈ pathParts then
        String.mk d ++ "T" ++ pad2 historical_hour_utc ++ ":00:00Z"
      else
        String.mk d ++ "T00:00:00Z"
    | none => ""

/-! ## CSV rows and the backfill orchestration (lines 20-25 and 50-92) -/

/-- A `csv.DictReader` row: field name to value, where the value `none`
models Python `None` (the `restval` for rows shorter than the header). -/
abbrev RowDict := List (String × Option String)

/-- Python dict lookup `row[k]` as an option: `none` models a missing key,
`some none` a key bound to `None`. -/
def rget (row : RowDict) (k : String) : Option (Option String) :=
  match row with
  | [] => none
  | (k0, v0) :: rest => if k0 = k then some v0 else rget rest k

/-- Python dict assignment `row[k] = v` (overwrite in place, insert if
absent). -/
def rset (row : RowDict) (k : String) (v : Option String) : RowDict :=
  match row with
  | [] => [(k, v)]
  | (k0, v0) :: rest => if k0 = k then (k0, v) :: rest else (k0, v0) :: rset rest k v

/-- Python `row.get(k, "")`: the empty string when the key is absent,
otherwise the stored value (which may be `None`). -/
def pyGet (row : RowDict) (k : String) : Option String :=
  match rget row k with
  | none => some ""
  | some v => v

/-- Python falsiness of a string-or-`None` value (`not x`). -/
def pyFalsy (v : Option String) : Bool :=
  match v with
  | none => true
  | some s => s = ""

/-- Line 20: the four timestamp columns added by the backfill. -/
def TIMESTAMP_COLUMNS : List String :=
  ["snapshot_taken_at_utc", "api_snapshot_timestamp_utc",
   "response_received_at_utc", "bookmaker_last_update_utc"]

/-- Lines 73-75: set `snapshot_taken_at_utc` from the inference result only
when the current value is falsy and the inferred value is nonempty.  The
returned flag is the `changed` contribution of this assignment. -/
def snapshotStep (inferred_snapshot : String) (row : RowDict) : RowDict × Bool :=
  if pyFalsy (pyGet row "snapshot_taken_at_utc") && inferred_snapshot ≠ "" then
    (rset row "snapshot_taken_at_utc" (some inferred_snapshot), true)
  else
    (row, false)

/-- Lines 76-84 (one column): normalize a timestamp column to `""` when the
key is absent or bound to `None`. -/
def normCol (k : String) (row : RowDict) : RowDict × Bool :=
  if rget row k = none || rget row k = some none then
    (rset row k (some ""), true)
  else
    (row, false)

/-- The whole per-row body of the loop at lines 72-84. -/
def updateRow (inferred_snapshot : String) (row : RowDict) : RowDict × Bool :=
  let s1 := snapshotStep inferred_snapshot row
  let s2 := normCol "api_snapshot_timestamp_utc" s1.1
  let s3 := normCol "response_received_at_utc" s2.1
  let s4 := normCol "bookmaker_last_update_utc" s3.1
  (s4.1, s1.2 || s2.2 || s3.2 || s4.2)

/-- Lines 59-62: append each missing timestamp column to the field names,
flagging whether anything was appended. -/
def addCols : List String → List String → List String × Bool
  | [], fns => (fns, false)
  | c :: cs, fns =>
    if fns.contains c then addCols cs fns
    else ((addCols cs (fns ++ [c])).1, true)

/-- A CSV file as observed through `csv.DictReader`: `header = none` models
`reader.fieldnames is None` (an empty file). -/
structure CsvFile where
  header : Option (List String)
  rows : List RowDict
deriving DecidableEq

/-- Writing one row through `csv.DictWriter(f, fieldnames)` and reading it
back: every header field is emitted, a missing key uses the `restval` `""`,
and `None` serializes to the empty cell. -/
def cellOut : Option (Option String) → String
  | none => ""
  | some none => ""
  | some (some s) => s

/-- Round trip of one row through `DictWriter.writerow` plus `DictReader`. -/
def normalizeRow (fieldnames : List String) (row : RowDict) : RowDict :=
  fieldnames.map (fun k => (k, some (cellOut (rget row k))))

/-- Lines 66-68 and 87-90: the on-disk file produced by `writeheader` plus
`writerows`, as the next `DictReader` will see it. -/
def writeCsv (fieldnames : List String) (rows : List RowDict) : CsvFile :=
  { header := some fieldnames, rows := rows.map (normalizeRow fieldnames) }

/-- `process_file` (lines 50-92).  The result is the on-disk file after the
call (unchanged unless the function rewrote it), the `changed` flag, and
the reason string returned to the caller. -/
def process_file (f : CsvFile) (pathParts : List String) (historical_hour_utc : Nat)
    (dry_run : Bool) : CsvFile × Bool × String :=
  match f.header with
  | none => (f, false, "empty/no header")
  | some fieldnames0 =>
    let ac := addCols TIMESTAMP_COLUMNS fieldnames0
    if f.rows.isEmpty then
      if ac.2 && !dry_run then
        (writeCsv ac.1 [], ac.2, "header-only update")
      else
        (f, ac.2, if ac.2 then "header-only update" else "already up to date")
    else
      let inferred_snapshot := infer_snapshot_timestamp pathParts historical_hour_utc
      let updated := f.rows.map (updateRow inferred_snapshot)
      let changed := ac.2 || updated.any (fun p => p.2)
      if changed && !dry_run then
        (writeCsv ac.1 (updated.map (fun p => p.1)), changed, "updated")
      else
        (f, changed, if changed then "updated" else "already up to date")

/-! ## Odds extraction (`fetch_odds.py` lines 62-132, and the identical
`parse_market` plus the historical variant in `fetch_historical_odds.py`
lines 77-152) -/

/-- An outcome object of the Odds API.  Per the data model, `name` and the
numeric `price` are always present (the price is held opaquely as its
string rendering); `point` is optional. -/
structure Outcome where
  name : String
  price : String
  point : Option String
deriving DecidableEq

/-- A market object: key (`h2h`, `spreads`, `totals`) and outcome list. -/
structure Market where
  key : String
  outcomes : List Outcome
deriving DecidableEq

/-- A bookmaker entry: key, optional `last_update`, markets.  A JSON object
lacking `markets` is modelled by the empty list, exactly what
`bookmaker_data.get("markets", [])` produces. -/
structure BookmakerEntry where
  key : String
  last_update : Option String
  markets : List Market
deriving DecidableEq

/-- A game object with the fields `parse_game_odds` reads. -/
structure Game where
  id : String
  sport_key : String
  commence_time : String
  home_team : String
  away_team : String
  bookmakers : List BookmakerEntry
deriving DecidableEq

/-- The flat output row (all CSV cells are strings). -/
structure Row where
  date : String
  sport : String
  game_id : String
  commence_time : String
  snapshot_taken_at_utc : String
  api_snapshot_timestamp_utc : String
  response_received_at_utc : String
  bookmaker_last_update_utc : String
  home_team : String
  away_team : String
  bookmaker : String
  ml_home : String
  ml_away : String
  spread_home : String
  spread_home_odds : String
  spread_away : String
  spread_away_odds : String
  total_line : String
  total_over_odds : String
  total_under_odds : String
deriving DecidableEq

/-- A Python dict from outcome name to outcome. -/
abbrev OutDict := List (String × Outcome)

/-- Python dict insertion (overwrite an existing binding, else append). -/
def dictSet (d : OutDict) (k : String) (v : Outcome) : OutDict :=
  match d with
  | [] => [(k, v)]
  | (k0, v0) :: rest => if k0 = k then (k0, v) :: rest else (k0, v0) :: dictSet rest k v

/-- The dict comprehension `{o["name"]: o for o in outcomes}` (line 66):
left-to-right insertion, so a repeated name is last-write-wins. -/
def dictOf (os : List Outcome) : OutDict :=
  os.foldl (fun d o => dictSet d o.name o) []

/-- Python dict lookup `d[k]` as an option (`none` models `KeyError`). -/
def dictGet (d : OutDict) (k : String) : Option Outcome :=
  match d with
  | [] => none
  | (k0, v0) :: rest => if k0 = k then some v0 else dictGet rest k

/-- Python `k in d`. -/
def dictMem (d : OutDict) (k : String) : Bool :=
  (dictGet d k).isSome

/-- Python truthiness of `parse_market`'s result (`None` and the empty dict
are falsy). -/
def pyTruthy (d : Option OutDict) : Bool :=
  match d with
  | none => false
  | some l => !l.isEmpty

/-- `parse_market` (identical at `fetch_odds.py` lines 62-68 and
`fetch_historical_odds.py` lines 77-83): the first market whose key
matches, turned into a name-to-outcome dict; `None` when no market
matches.  The team-name arguments are accepted and unused, as in the
source. -/
def parse_market (markets : List Market) (market_key home_team away_team : String) :
    Option OutDict :=
  match markets with
  | [] => none
  | m :: rest =>
    if m.key = market_key then some (dictOf m.outcomes)
    else parse_market rest market_key home_team away_team

/-- The guarded access idiom `f(d[k]) if d and k in d else default` used for
every market (lines 82-83, 91-97, 104-109): the subscription `d[k]` is
fallible, but it only runs under the truthiness and membership guard. -/
def guardedLookup {α : Type} (d : Option OutDict) (k : String) (f : Outcome → α)
    (dflt : α) : Option α :=
  if pyTruthy d && dictMem (d.getD []) k then
    (dictGet (d.getD []) k).map f
  else
    some dflt

/-- Total description of what `guardedLookup` yields, used to state field
values of the produced row. -/
def lookupField {α : Type} (d : Option OutDict) (k : String) (f : Outcome → α)
    (dflt : α) : α :=
  match d with
  | none => dflt
  | some l =>
    match dictGet l k with
    | none => dflt
    | some o => f o

/-- The membership test `"nhl" in sport_key` (Python substring test). -/
def listHasPre : List Char → List Char → Bool
  | [], _ => true
  | _ :: _, [] => false
  | c :: cs, x :: xs => (c = x) && listHasPre cs xs

/-- Python `needle in hay` for strings, on character lists. -/
def subOccurs (needle hay : List Char) : Bool :=
  match hay with
  | [] => needle.isEmpty
  | _ :: rest => listHasPre needle hay || subOccurs needle rest

/-- Python `str.upper()` (ASCII, matching this repository's inputs). -/
def strUpper (s : String) : String :=
  String.mk (s.data.map Char.toUpper)

/-- `parse_game_odds` (`fetch_odds.py` lines 71-132).  Every Python dict
subscription is `Option`-valued, so a `KeyError` would surface as `none`;
the guards in the source make that impossible, which is proved below. -/
def parse_game_odds (game : Game) (bookmaker_data : BookmakerEntry)
    (today_str snapshot_taken_at_utc response_received_at_utc : String) : Option Row := do
  let home_team := game.home_team
  let away_team := game.away_team
  let sport_name := if subOccurs ("nhl".data) game.sport_key.data then "NHL"
    else strUpper game.sport_key
  let markets := bookmaker_data.markets
  let h2h := parse_market markets "h2h" home_team away_team
  let ml_home ← guardedLookup h2h home_team (fun o => o.price) ""
  let ml_away ← guardedLookup h2h away_team (fun o => o.price) ""
  let spreads := parse_market markets "spreads" home_team away_team
  let sh ← guardedLookup spreads home_team (fun o => (o.point.getD "", o.price)) ("", "")
  let sa ← guardedLookup spreads away_team (fun o => (o.point.getD "", o.price)) ("", "")
  let totals := parse_market markets "totals" home_team away_team
  let ov ← guardedLookup totals "Over" (fun o => (o.point.getD "", o.price)) ("", "")
  let un ← guardedLookup totals "Under" (fun o => o.price) ""
  pure {
    date := today_str
    sport := sport_name
    game_id := game.id
    commence_time := game.commence_time
    snapshot_taken_at_utc := snapshot_taken_at_utc
    api_snapshot_timestamp_utc := ""
    response_received_at_utc := response_received_at_utc
    bookmaker_last_update_utc := bookmaker_data.last_update.getD ""
    home_team := home_team
    away_team := away_team
    bookmaker := bookmaker_data.key
    ml_home := ml_home
    ml_away := ml_away
    spread_home := sh.1
    spread_home_odds := sh.2
    spread_away := sa.1
    spread_away_odds := sa.2
    total_line := ov.1
    total_over_odds := ov.2
    total_under_odds := un }

/-- `BOOKMAKER_DISPLAY.get(key, key)` (`fetch_historical_odds.py` lines
22-23 and 142). -/
def bookmakerDisplay (k : String) : String :=
  if k = "betmgm" then "betmgm"
  else if k = "williamhill_us" then "caesars"
  else k

/-- `parse_game_odds` of `fetch_historical_odds.py` (lines 86-152): the
market logic is identical; the row differs in `sport` (always `"NHL"`),
`api_snapshot_timestamp_utc` (a parameter) and the displayed bookmaker. -/
def parse_game_odds_hist (game : Game) (bookmaker_data : BookmakerEntry)
    (date_str snapshot_taken_at_utc api_snapshot_timestamp_utc
     response_received_at_utc : String) : Option Row := do
  let home_team := game.home_team
  let away_team := game.away_team
  let markets := bookmaker_data.markets
  let h2h := parse_market markets "h2h" home_team away_team
  let ml_home ← guardedLookup h2h home_team (fun o => o.price) ""
  let ml_away ← guardedLookup h2h away_team (fun o => o.price) ""
  let spreads := parse_market markets "spreads" home_team away_team
  let sh ← guardedLookup spreads home_team (fun o => (o.point.getD "", o.price)) ("", "")
  let sa ← guardedLookup spreads away_team (fun o => (o.point.getD "", o.price)) ("", "")
  let totals := parse_market markets "totals" home_team away_team
  let ov ← guardedLookup totals "Over" (fun o => (o.point.getD "", o.price)) ("", "")
  let un ← guardedLookup totals "Under" (fun o => o.price) ""
  pure {
    date := date_str
    sport := "NHL"
    game_id := game.id
    commence_time := game.commence_time
    snapshot_taken_at_utc := snapshot_taken_at_utc
    api_snapshot_timestamp_utc := api_snapshot_timestamp_utc
    response_received_at_utc := response_received_at_utc
    bookmaker_last_update_utc := bookmaker_data.last_update.getD ""
    home_team := home_team
    away_team := away_team
    bookmaker := bookmakerDisplay bookmaker_data.key
    ml_home := ml_home
    ml_away := ml_away
    spread_home := sh.1
    spread_home_odds := sh.2
    spread_away := sa.1
    spread_away_odds := sa.2
    total_line := ov.1
    total_over_odds := ov.2
    total_under_odds := un }

/-- The inner loop of `fetch_odds.main` (lines 161-170): one extraction per
(game, bookmaker entry) pair. -/
def gameRows (game : Game) (today_str snapshot_taken_at_utc response_received_at_utc : String) :
    List (Option Row) :=
  game.bookmakers.map
    (fun b => parse_game_odds game b today_str snapshot_taken_at_utc response_received_at_utc)

/-- The last outcome of the list carrying a given name, the reference point
of the last-write-wins claim. -/
def lastNamed (os : List Outcome) (n : String) : Option Outcome :=
  match os with
  | [] => none
  | o :: rest =>
    match lastNamed rest n with
    | some x => some x
    | none => if o.name = n then some o else none

/-! ## Lemmas about the filename parsers -/

theorem stripLit_append (lit s : List Char) : stripLit lit (lit ++ s) = some s := by
  induction lit with
  | nil => rfl
  | cons c cs ih => simp [stripLit, ih]

theorem lastPart_append (dirs : List String) (x : String) :
    lastPart (dirs ++ [x]) = x := by
  induction dirs with
  | nil => rfl
  | cons d rest ih =>
    cases rest with
    | nil => rfl
    | cons e rest2 => simpa [lastPart] using ih

theorem take_len_append {α : Type} (l1 l2 : List α) (n : Nat) (h : l1.length = n) :
    (l1 ++ l2).take n = l1 := by
  subst h
  induction l1 with
  | nil => rfl
  | cons a t ih => simp [ih]

theorem drop_len_append {α : Type} (l1 l2 : List α) (n : Nat) (h : l1.length = n) :
    (l1 ++ l2).drop n = l2 := by
  subst h
  induction l1 with
  | nil => rfl
  | cons a t ih => simp [ih]

theorem dateChars_length (l : List Char) (h : dateChars l = true) : l.length = 10 := by
  unfold dateChars at h
  split at h
  · simp_all
  · simp_all

theorem tsChars_length (l : List Char) (h : tsChars l = true) : l.length = 16 := by
  unfold tsChars at h
  split at h
  · simp_all
  · simp_all

theorem splitUnd_append (label rest : List Char) (h : '_' ∉ label) :
    splitUnd (label ++ '_' :: rest) = some (label, rest) := by
  induction label with
  | nil => simp [splitUnd]
  | cons c cs ih =>
    have hc : c ≠ '_' := by
      intro he
      exact h (he ▸ List.mem_cons_self c cs)
    have hcs : '_' ∉ cs := fun hm => h (List.mem_cons_of_mem c hm)
    simp [splitUnd, hc, ih hcs]

theorem matchTimestamped_eq (date label ts : List Char)
    (hd : dateChars date = true) (hl : label ≠ []) (hlu : '_' ∉ label)
    (ht : tsChars ts = true) :
    matchTimestamped ("odds_".data ++ (date ++ ('_' :: (label ++ ('_' :: (ts ++ ".csv".data))))))
      = some (date, ts) := by
  simp only [matchTimestamped, stripLit_append,
    take_len_append date ('_' :: (label ++ ('_' :: (ts ++ ".csv".data)))) 10
      (dateChars_length date hd),
    drop_len_append date ('_' :: (label ++ ('_' :: (ts ++ ".csv".data)))) 10
      (dateChars_length date hd),
    hd, if_true, splitUnd_append label (ts ++ ".csv".data) hlu,
    take_len_append ts (".csv".data) 16 (tsChars_length ts ht),
    drop_len_append ts (".csv".data) 16 (tsChars_length ts ht)]
  simp [List.isEmpty_iff, hl, ht]

theorem matchTimestamped_bare (date : List Char) (hd : dateChars date = true) :
    matchTimestamped ("odds_".data ++ (date ++ ".csv".data)) = none := by
  simp only [matchTimestamped, stripLit_append,
    take_len_append date (".csv".data) 10 (dateChars_length date hd),
    drop_len_append date (".csv".data) 10 (dateChars_length date hd),
    hd, if_true]
  simp

theorem matchBareDate_eq (date : List Char) (hd : dateChars date = true) :
    matchBareDate ("odds_".data ++ (date ++ ".csv".data)) = some date := by
  simp only [matchBareDate, stripLit_append,
    take_len_append date (".csv".data) 10 (dateChars_length date hd),
    drop_len_append date (".csv".data) 10 (dateChars_length date hd)]
  simp [hd]

/-- C1 (amended): for every directory prefix and every filename
`odds_<date>_<label>_<YYYYMMDDTHHMMSSZ>.csv` whose label is nonempty and
free of underscores, `infer_snapshot_timestamp` returns the trailing
compact timestamp reformatted to canonical `YYYY-MM-DDTHH:MM:SSZ`
(`formatCompactTs`), regardless of the directory the file sits in.  The
original claim's "any label" fails for labels containing an underscore,
because the label group of `TIMESTAMPED_RE` is `[^_]+`; see the
counterexample. -/
theorem C1_timestamped_pattern (dirs : List String) (date label ts : List Char)
    (historical_hour_utc : Nat)
    (hd : dateChars date = true) (hl : label ≠ []) (hlu : '_' ∉ label)
    (ht : tsChars ts = true) :
    infer_snapshot_timestamp
      (dirs ++ [String.mk
        ("odds_".data ++ (date ++ ('_' :: (label ++ ('_' :: (ts ++ ".csv".data))))))])
      historical_hour_utc
      = formatCompactTs ts := by
  simp only [infer_snapshot_timestamp, lastPart_append,
    matchTimestamped_eq date label ts hd hl hlu ht]

/-- Witness for C1: the spec's concrete example
`odds_2024-01-05_open_20240105T170000Z.csv` under a nonempty directory
prefix maps to `2024-01-05T17:00:00Z`. -/
theorem C1_timestamped_pattern_witness :
    infer_snapshot_timestamp
      (["data"] ++ [String.mk ("odds_".data ++ ("2024-01-05".data ++ ('_' :: ("open".data
        ++ ('_' :: ("20240105T170000Z".data ++ ".csv".data))))))]) 17
      = "2024-01-05T17:00:00Z" :=
  Eq.trans
    (C1_timestamped_pattern ["data"] ("2024-01-05".data) ("open".data)
      ("20240105T170000Z".data) 17 (by decide) (by decide) (by decide) (by decide))
    (by decide)

/-- Counterexample to C1 as stated: with the label `open_9pm_pst` (an
example label given in the repository's own CLI help), the filename is of
the form `odds_<date>_<label>_<YYYYMMDDTHHMMSSZ>.csv`, yet
`infer_snapshot_timestamp` returns `""`, not the reformatted timestamp. -/
theorem C1_timestamped_pattern_cex :
    infer_snapshot_timestamp ["odds_2024-01-05_open_9pm_pst_20240105T170000Z.csv"] 17
        ≠ "2024-01-05T17:00:00Z"
      ∧ infer_snapshot_timestamp ["odds_2024-01-05_open_9pm_pst_20240105T170000Z.csv"] 17
        = "" := by
  exact ⟨by decide, by decide⟩

/-- C3: for every bare-date filename `odds_<YYYY-MM-DD>.csv`,
`infer_snapshot_timestamp` returns `<date>T<historicalHourUtc>:00:00Z`
exactly when some path segment is literally `historical`, and
`<date>T00:00:00Z` otherwise: the directory context alone decides between
the two textually identical filename patterns. -/
theorem C3_bare_date_directory (dirs : List String) (date : List Char)
    (historical_hour_utc : Nat) (hd : dateChars date = true) :
    infer_snapshot_timestamp
      (dirs ++ [String.mk ("odds_".data ++ (date ++ ".csv".data))]) historical_hour_utc
      = if "historical" ∈ dirs ++ [String.mk ("odds_".data ++ (date ++ ".csv".data))] then
          String.mk date ++ "T" ++ pad2 historical_hour_utc ++ ":00:00Z"
        else
          String.mk date ++ "T00:00:00Z" := by
  simp only [infer_snapshot_timestamp, lastPart_append,
    matchTimestamped_bare date hd, matchBareDate_eq date hd]

/-- Witness for C3, covering both directions of the spec example: the same
bare-date filename yields `2024-01-05T17:00:00Z` under a `historical`
directory segment with hour 17, and `2024-01-05T00:00:00Z` outside it. -/
theorem C3_bare_date_directory_witness :
    infer_snapshot_timestamp ["odds-data", "historical", "odds_2024-01-05.csv"] 17
        = "2024-01-05T17:00:00Z"
      ∧ infer_snapshot_timestamp ["odds-data", "odds_2024-01-05.csv"] 17
        = "2024-01-05T00:00:00Z" := by
  constructor
  · have h := C3_bare_date_directory ["odds-data", "historical"] ("2024-01-05".data) 17
      (by decide)
    exact Eq.trans (by decide) (Eq.trans h (by decide))
  · have h := C3_bare_date_directory ["odds-data"] ("2024-01-05".data) 17 (by decide)
    exact Eq.trans (by decide) (Eq.trans h (by decide))

/-! ## Lemmas about the odds extraction -/

theorem guardedLookup_eq {α : Type} (d : Option OutDict) (k : String) (f : Outcome → α)
    (dflt : α) : guardedLookup d k f dflt = some (lookupField d k f dflt) := by
  cases d with
  | none => simp [guardedLookup, pyTruthy, lookupField]
  | some l =>
    cases hg : dictGet l k with
    | none =>
      simp [guardedLookup, pyTruthy, dictMem, lookupField, hg]
    | some o =>
      cases l with
      | nil => simp [dictGet] at hg
      | cons p rest =>
        simp [guardedLookup, pyTruthy, dictMem, lookupField, hg]

theorem parse_market_none (ms : List Market) (k h a : String)
    (hk : ∀ m ∈ ms, m.key ≠ k) : parse_market ms k h a = none := by
  induction ms with
  | nil => rfl
  | cons m rest ih =>
    simp [parse_market, hk m (List.mem_cons_self m rest),
      ih (fun x hx => hk x (List.mem_cons_of_mem m hx))]

theorem dictGet_dictSet (d : OutDict) (k : String) (v : Outcome) (j : String) :
    dictGet (dictSet d k v) j = if k = j then some v else dictGet d j := by
  induction d with
  | nil => simp [dictSet, dictGet]
  | cons p rest ih =>
    by_cases h0 : p.1 = k
    · simp only [dictSet, h0, if_true]
      by_cases hj : k = j
      · simp [dictGet, h0, hj]
      · simp [dictGet, h0, hj]
    · simp only [dictSet, h0, if_false]
      by_cases hj : p.1 = j
      · have hkj : k ≠ j := fun he => h0 (by rw [he, hj])
        simp [dictGet, hj, hkj]
      · simp [dictGet, hj, ih]

theorem dictGet_foldl (os : List Outcome) (d : OutDict) (n : String) :
    dictGet (os.foldl (fun acc o => dictSet acc o.name o) d) n =
      match lastNamed os n with
      | some x => some x
      | none => dictGet d n := by
  induction os generalizing d with
  | nil => simp [lastNamed]
  | cons o rest ih =>
    simp only [List.foldl_cons, lastNamed]
    rw [ih]
    cases hl : lastNamed rest n with
    | some x => simp
    | none =>
      by_cases hn : o.name = n
      · simp [dictGet_dictSet, hn]
      · simp [dictGet_dictSet, hn]

theorem dictGet_dictOf (os : List Outcome) (n : String) :
    dictGet (dictOf os) n = lastNamed os n := by
  rw [dictOf, dictGet_foldl os [] n]
  cases lastNamed os n with
  | some x => rfl
  | none => rfl

theorem lastNamed_some_of_countP (os : List Outcome) (n : String)
    (h : 1 ≤ os.countP (fun o => o.name = n)) : ∃ o, lastNamed os n = some o := by
  induction os with
  | nil => simp [List.countP_nil] at h
  | cons o rest ih =>
    cases hl : lastNamed rest n with
    | some x => exact ⟨x, by simp [lastNamed, hl]⟩
    | none =>
      have hn : o.name = n := by
        by_contra hne
        have hr : rest.countP (fun o => o.name = n) = 0 := by
          cases hc : rest.countP (fun o => o.name = n) with
          | zero => rfl
          | succ m =>
            obtain ⟨x, hx⟩ := ih (by omega)
            rw [hx] at hl
            exact absurd hl (by simp)
        rw [List.countP_cons] at h
        simp [hne, hr] at h
      exact ⟨o, by simp [lastNamed, hl, hn]⟩

/-! ## The extraction claims -/

/-- C7: odds extraction is total and silent on missing data.  Every Python
dict subscription in `parse_game_odds` is modelled as a fallible access, so
a `KeyError` would surface as `none`; for every game and bookmaker entry
(markets possibly empty, any outcomes), both extractors return a row, with
empty-string defaulting as the only failure mode. -/
theorem C7_extraction_total (game : Game) (bookmaker_data : BookmakerEntry)
    (t s ats r : String) :
    (∃ row, parse_game_odds game bookmaker_data t s r = some row)
    ∧ (∃ row, parse_game_odds_hist game bookmaker_data t s ats r = some row) := by
  constructor
  · simp only [parse_game_odds, guardedLookup_eq, Option.bind_eq_bind, Option.some_bind]
    exact ⟨_, rfl⟩
  · simp only [parse_game_odds_hist, guardedLookup_eq, Option.bind_eq_bind, Option.some_bind]
    exact ⟨_, rfl⟩

/-- C2: in totals extraction, `total_line` is sourced solely from the
outcome named exactly `Over`: when the totals market's dict has an `Under`
outcome but no `Over`, the row carries the under-price while `total_line`
and `total_over_odds` stay empty.  Proved for both `fetch_odds.py` and
`fetch_historical_odds.py`. -/
theorem C2_total_line_from_over_only (game : Game) (bookmaker_data : BookmakerEntry)
    (t s ats r : String) (d : OutDict) (u : Outcome)
    (hm : parse_market bookmaker_data.markets "totals" game.home_team game.away_team = some d)
    (hov : dictGet d "Over" = none)
    (hun : dictGet d "Under" = some u) :
    (∀ row, parse_game_odds game bookmaker_data t s r = some row →
      row.total_line = "" ∧ row.total_over_odds = "" ∧ row.total_under_odds = u.price)
    ∧ (∀ row, parse_game_odds_hist game bookmaker_data t s ats r = some row →
      row.total_line = "" ∧ row.total_over_odds = "" ∧ row.total_under_odds = u.price) := by
  constructor
  · intro row h
    simp only [parse_game_odds, guardedLookup_eq, Option.bind_eq_bind, Option.some_bind,
      Option.pure_def, Option.some.injEq] at h
    subst h
    simp [lookupField, hm, hov, hun]
  · intro row h
    simp only [parse_game_odds_hist, guardedLookup_eq, Option.bind_eq_bind, Option.some_bind,
      Option.pure_def, Option.some.injEq] at h
    subst h
    simp [lookupField, hm, hov, hun]

/-- Witness for C2: a bookmaker whose totals market has only
`Under` (price `-110`) yields an empty line and over-price and the under
price `-110`. -/
theorem C2_total_line_from_over_only_witness :
    (parse_game_odds
        ⟨"g1", "icehockey_nhl", "2024-01-05T22:00:00Z", "Home", "Away", []⟩
        ⟨"betmgm", none, [⟨"totals", [⟨"Under", "-110", some "6.5"⟩]⟩]⟩
        "2024-01-05" "s" "r").map
      (fun row => (row.total_line, row.total_over_odds, row.total_under_odds))
      = some ("", "", "-110") := by
  have h := C2_total_line_from_over_only
    ⟨"g1", "icehockey_nhl", "2024-01-05T22:00:00Z", "Home", "Away", []⟩
    ⟨"betmgm", none, [⟨"totals", [⟨"Under", "-110", some "6.5"⟩]⟩]⟩
    "2024-01-05" "s" "ats" "r"
    [("Under", ⟨"Under", "-110", some "6.5"⟩)] ⟨"Under", "-110", some "6.5"⟩
    (by decide) (by decide) (by decide)
  cases hp : parse_game_odds
      ⟨"g1", "icehockey_nhl", "2024-01-05T22:00:00Z", "Home", "Away", []⟩
      ⟨"betmgm", none, [⟨"totals", [⟨"Under", "-110", some "6.5"⟩]⟩]⟩
      "2024-01-05" "s" "r" with
  | none => exact absurd hp (by decide)
  | some row =>
    have h2 := h.1 row hp
    simp [h2.1, h2.2.1, h2.2.2]

/-- C9: h2h moneylines are looked up independently per team name: an h2h
dict containing the away team but not the home team yields an empty
`ml_home` and the away outcome's price as `ml_away`. -/
theorem C9_h2h_independent_lookup (game : Game) (bookmaker_data : BookmakerEntry)
    (t s r : String) (d : OutDict) (o : Outcome)
    (hm : parse_market bookmaker_data.markets "h2h" game.home_team game.away_team = some d)
    (hhome : dictGet d game.home_team = none)
    (haway : dictGet d game.away_team = some o) :
    ∀ row, parse_game_odds game bookmaker_data t s r = some row →
      row.ml_home = "" ∧ row.ml_away = o.price := by
  intro row h
  simp only [parse_game_odds, guardedLookup_eq, Option.bind_eq_bind, Option.some_bind,
    Option.pure_def, Option.some.injEq] at h
  subst h
  simp [lookupField, hm, hhome, haway]

/-- Witness for C9: an h2h market quoting only the away team (price `150`)
yields `ml_home = ""` and `ml_away = "150"`. -/
theorem C9_h2h_independent_lookup_witness :
    (parse_game_odds
        ⟨"g1", "icehockey_nhl", "2024-01-05T22:00:00Z", "Home", "Away", []⟩
        ⟨"betmgm", none, [⟨"h2h", [⟨"Away", "150", none⟩]⟩]⟩
        "2024-01-05" "s" "r").map (fun row => (row.ml_home, row.ml_away))
      = some ("", "150") := by
  have h := C9_h2h_independent_lookup
    ⟨"g1", "icehockey_nhl", "2024-01-05T22:00:00Z", "Home", "Away", []⟩
    ⟨"betmgm", none, [⟨"h2h", [⟨"Away", "150", none⟩]⟩]⟩
    "2024-01-05" "s" "r"
    [("Away", ⟨"Away", "150", none⟩)] ⟨"Away", "150", none⟩
    (by decide) (by decide) (by decide)
  cases hp : parse_game_odds
      ⟨"g1", "icehockey_nhl", "2024-01-05T22:00:00Z", "Home", "Away", []⟩
      ⟨"betmgm", none, [⟨"h2h", [⟨"Away", "150", none⟩]⟩]⟩
      "2024-01-05" "s" "r" with
  | none => exact absurd hp (by decide)
  | some row =>
    have h2 := h row hp
    simp [h2.1, h2.2]

/-- C5: one row per (game, bookmaker entry) pair — the per-game loop maps
every bookmaker entry to exactly one extraction result — and a market key
absent from the entry's market list leaves every one of that market's row
fields equal to the empty string (present in the `Row` structure, not
omitted). -/
theorem C5_row_per_pair (game : Game) (bookmaker_data : BookmakerEntry)
    (t s r : String) (row : Row)
    (hrow : parse_game_odds game bookmaker_data t s r = some row) :
    (gameRows game t s r).length = game.bookmakers.length
    ∧ ((∀ m ∈ bookmaker_data.markets, m.key ≠ "h2h") →
        row.ml_home = "" ∧ row.ml_away = "")
    ∧ ((∀ m ∈ bookmaker_data.markets, m.key ≠ "spreads") →
        row.spread_home = "" ∧ row.spread_home_odds = ""
          ∧ row.spread_away = "" ∧ row.spread_away_odds = "")
    ∧ ((∀ m ∈ bookmaker_data.markets, m.key ≠ "totals") →
        row.total_line = "" ∧ row.total_over_odds = "" ∧ row.total_under_odds = "") := by
  simp only [parse_game_odds, guardedLookup_eq, Option.bind_eq_bind, Option.some_bind,
    Option.pure_def, Option.some.injEq] at hrow
  subst hrow
  refine ⟨by simp [gameRows], ?_, ?_, ?_⟩
  · intro hk
    simp [lookupField,
      parse_market_none bookmaker_data.markets "h2h" game.home_team game.away_team hk]
  · intro hk
    simp [lookupField,
      parse_market_none bookmaker_data.markets "spreads" game.home_team game.away_team hk]
  · intro hk
    simp [lookupField,
      parse_market_none bookmaker_data.markets "totals" game.home_team game.away_team hk]

/-- Witness for C5: a bookmaker entry with no markets at all produces one
row whose nine odds fields are all empty strings. -/
theorem C5_row_per_pair_witness :
    (gameRows
        ⟨"g1", "icehockey_nhl", "2024-01-05T22:00:00Z", "Home", "Away",
          [⟨"betmgm", none, []⟩]⟩ "2024-01-05" "s" "r").length = 1
    ∧ (parse_game_odds
        ⟨"g1", "icehockey_nhl", "2024-01-05T22:00:00Z", "Home", "Away",
          [⟨"betmgm", none, []⟩]⟩
        ⟨"betmgm", none, []⟩ "2024-01-05" "s" "r").map
      (fun row => (row.ml_home, row.ml_away, row.spread_home, row.spread_home_odds,
        row.spread_away, row.spread_away_odds, row.total_line, row.total_over_odds,
        row.total_under_odds))
      = some ("", "", "", "", "", "", "", "", "") := by
  cases hp : parse_game_odds
      ⟨"g1", "icehockey_nhl", "2024-01-05T22:00:00Z", "Home", "Away",
        [⟨"betmgm", none, []⟩]⟩
      ⟨"betmgm", none, []⟩ "2024-01-05" "s" "r" with
  | none => exact absurd hp (by decide)
  | some row =>
    have h := C5_row_per_pair
      ⟨"g1", "icehockey_nhl", "2024-01-05T22:00:00Z", "Home", "Away",
        [⟨"betmgm", none, []⟩]⟩
      ⟨"betmgm", none, []⟩ "2024-01-05" "s" "r" row hp
    have h2 := h.2.1 (by simp)
    have h3 := h.2.2.1 (by simp)
    have h4 := h.2.2.2 (by simp)
    refine ⟨h.1, ?_⟩
    simp [hp, h2.1, h2.2, h3.1, h3.2.1, h3.2.2.1, h3.2.2.2, h4.1, h4.2.1, h4.2.2]

/-- C10: when a bookmaker's market list holds several markets with the same
key, `parse_market` uses the first matching market in list order and
ignores every later one — first-match for markets, unlike the
last-write-wins rule for outcome names within one market. -/
theorem C10_first_market_wins (ms1 ms2 : List Market) (m : Market) (k h a : String)
    (h1 : ∀ m2 ∈ ms1, m2.key ≠ k) (hm : m.key = k) :
    parse_market (ms1 ++ m :: ms2) k h a = some (dictOf m.outcomes) := by
  induction ms1 with
  | nil => simp [parse_market, hm]
  | cons m0 rest ih =>
    simp [parse_market, h1 m0 (List.mem_cons_self m0 rest),
      ih (fun x hx => h1 x (List.mem_cons_of_mem m0 hx))]

/-- Witness for C10: with two `totals` markets in the list, the extracted
dict comes from the first one; the later duplicate is ignored. -/
theorem C10_first_market_wins_witness :
    parse_market
      [⟨"h2h", []⟩, ⟨"totals", [⟨"Over", "-105", some "6.5"⟩]⟩,
        ⟨"totals", [⟨"Over", "-999", some "9.9"⟩]⟩] "totals" "Home" "Away"
      = some (dictOf [⟨"Over", "-105", some "6.5"⟩]) := by
  have h := C10_first_market_wins [⟨"h2h", []⟩]
    [⟨"totals", [⟨"Over", "-999", some "9.9"⟩]⟩]
    ⟨"totals", [⟨"Over", "-105", some "6.5"⟩]⟩ "totals" "Home" "Away"
    (by decide) (by decide)
  exact h

/-- C8: within one market, the dict built by `parse_market` is
last-write-wins on outcome names: whenever two or more outcomes share a
name, the outcome (hence price and point) extracted for that name is the
last one in the list; duplicates are neither deduplicated nor an error. -/
theorem C8_last_write_wins (os : List Outcome) (n : String)
    (hdup : 2 ≤ os.countP (fun o => o.name = n)) :
    dictGet (dictOf os) n = lastNamed os n ∧ lastNamed os n ≠ none := by
  refine ⟨dictGet_dictOf os n, ?_⟩
  obtain ⟨o, ho⟩ := lastNamed_some_of_countP os n (by omega)
  simp [ho]

/-- Witness for C8: two `Over` outcomes; the second one (price `-120`) is
the one the dict returns. -/
theorem C8_last_write_wins_witness :
    dictGet (dictOf [⟨"Over", "-110", some "6.0"⟩, ⟨"Over", "-120", some "6.5"⟩]) "Over"
        = lastNamed [⟨"Over", "-110", some "6.0"⟩, ⟨"Over", "-120", some "6.5"⟩] "Over"
      ∧ lastNamed [⟨"Over", "-110", some "6.0"⟩, ⟨"Over", "-120", some "6.5"⟩] "Over"
        = some ⟨"Over", "-120", some "6.5"⟩ := by
  have h := C8_last_write_wins
    [⟨"Over", "-110", some "6.0"⟩, ⟨"Over", "-120", some "6.5"⟩] "Over" (by decide)
  exact ⟨h.1, by decide⟩

/-! ## Lemmas about the backfill row update -/

theorem rget_rset (row : RowDict) (k : String) (v : Option String) (j : String) :
    rget (rset row k v) j = if k = j then some v else rget row j := by
  induction row with
  | nil => simp [rset, rget]
  | cons p rest ih =>
    by_cases h0 : p.1 = k
    · by_cases hj : k = j
      · simp [rset, rget, h0, hj]
      · simp [rset, rget, h0, hj]
    · by_cases hj : p.1 = j
      · have hkj : k ≠ j := fun he => h0 (by rw [he, hj])
        simp [rset, rget, h0, hj, hkj, Ne.symm hkj]
      · simp [rset, rget, h0, hj, ih]

theorem rget_normCol (k : String) (row : RowDict) (j : String) (hj : j ≠ k) :
    rget (normCol k row).1 j = rget row j := by
  have hkj : k ≠ j := fun he => hj he.symm
  unfold normCol
  split
  · simp [rget_rset, hkj]
  · rfl

theorem snapshotStep_rget (inferred_snapshot : String) (row : RowDict) (k : String) :
    rget (snapshotStep inferred_snapshot row).1 k =
      if k = "snapshot_taken_at_utc"
          ∧ pyFalsy (pyGet row "snapshot_taken_at_utc") = true ∧ inferred_snapshot ≠ "" then
        some (some inferred_snapshot)
      else rget row k := by
  by_cases hf : pyFalsy (pyGet row "snapshot_taken_at_utc") = true
  · by_cases hi : inferred_snapshot = ""
    · simp [snapshotStep, hf, hi]
    · by_cases hk : k = "snapshot_taken_at_utc"
      · simp [snapshotStep, hf, hi, hk, rget_rset]
      · have hk2 : "snapshot_taken_at_utc" ≠ k := fun he => hk he.symm
        simp [snapshotStep, hf, hi, hk, hk2, rget_rset]
  · simp [snapshotStep, hf]

theorem updateRow_rget_snapshot (inferred_snapshot : String) (row : RowDict) :
    rget (updateRow inferred_snapshot row).1 "snapshot_taken_at_utc" =
      if pyFalsy (pyGet row "snapshot_taken_at_utc") = true ∧ inferred_snapshot ≠ "" then
        some (some inferred_snapshot)
      else rget row "snapshot_taken_at_utc" := by
  have hframe : rget (updateRow inferred_snapshot row).1 "snapshot_taken_at_utc"
      = rget (snapshotStep inferred_snapshot row).1 "snapshot_taken_at_utc" := by
    unfold updateRow
    rw [rget_normCol _ _ _ (by decide), rget_normCol _ _ _ (by decide),
      rget_normCol _ _ _ (by decide)]
  rw [hframe, snapshotStep_rget]
  simp

/-- C4: the backfill row update assigns `snapshot_taken_at_utc` from the
inference result exactly when the row's current value is empty (absent,
`None`, or `""`) and the inferred timestamp is nonempty, and it leaves
every other field of the row unchanged by that assignment.  In
particular an existing nonempty value is never overwritten (not even
through the full `updateRow` pipeline) and an empty inference result is
never written over any existing value. -/
theorem C4_never_overwrite (inferred_snapshot : String) (row : RowDict) (k : String) :
    (rget (snapshotStep inferred_snapshot row).1 k =
      if k = "snapshot_taken_at_utc"
          ∧ pyFalsy (pyGet row "snapshot_taken_at_utc") = true ∧ inferred_snapshot ≠ "" then
        some (some inferred_snapshot)
      else rget row k)
    ∧ (rget (updateRow inferred_snapshot row).1 "snapshot_taken_at_utc" =
      if pyFalsy (pyGet row "snapshot_taken_at_utc") = true ∧ inferred_snapshot ≠ "" then
        some (some inferred_snapshot)
      else rget row "snapshot_taken_at_utc") :=
  ⟨snapshotStep_rget inferred_snapshot row k, updateRow_rget_snapshot inferred_snapshot row⟩

/-! ## Lemmas about the backfill orchestration -/

theorem addCols_mem_old (cs : List String) (fns : List String) (c : String) (hc : c ∈ fns) :
    c ∈ (addCols cs fns).1 := by
  induction cs generalizing fns with
  | nil => exact hc
  | cons c0 rest ih =>
    by_cases h0 : c0 ∈ fns
    · simpa [addCols, h0] using ih fns hc
    · simpa [addCols, h0] using ih (fns ++ [c0]) (List.mem_append_left _ hc)

theorem addCols_mem_new (cs : List String) (fns : List String) (c : String) (hc : c ∈ cs) :
    c ∈ (addCols cs fns).1 := by
  induction cs generalizing fns with
  | nil => simp at hc
  | cons c0 rest ih =>
    by_cases h0 : c0 ∈ fns
    · rcases List.mem_cons.1 hc with he | hr
      · subst he
        simpa [addCols, h0] using addCols_mem_old rest fns c h0
      · simpa [addCols, h0] using ih fns hr
    · rcases List.mem_cons.1 hc with he | hr
      · subst he
        simpa [addCols, h0] using
          addCols_mem_old rest (fns ++ [c]) c (List.mem_append_right _ (by simp))
      · simpa [addCols, h0] using ih (fns ++ [c0]) hr

theorem addCols_of_mem (cs : List String) (fns : List String) (h : ∀ c ∈ cs, c ∈ fns) :
    addCols cs fns = (fns, false) := by
  induction cs with
  | nil => rfl
  | cons c0 rest ih =>
    simp [addCols, h c0 (List.mem_cons_self c0 rest),
      ih (fun c hc => h c (List.mem_cons_of_mem c0 hc))]

theorem rget_normalizeRow (fns : List String) (row : RowDict) (j : String) :
    rget (normalizeRow fns row) j =
      if j ∈ fns then some (some (cellOut (rget row j))) else none := by
  induction fns with
  | nil => simp [normalizeRow, rget]
  | cons k rest ih =>
    by_cases hk : k = j
    · subst hk
      simp [normalizeRow, rget]
    · have hjk : ¬j = k := fun he => hk he.symm
      simp only [normalizeRow, List.map_cons, rget, hk, if_false]
      rw [show List.map (fun k0 => (k0, some (cellOut (rget row k0)))) rest
        = normalizeRow rest row from rfl, ih]
      simp [List.mem_cons, hjk]

theorem normCol_stable (k : String) (row : RowDict) (s : String)
    (h : rget row k = some (some s)) : normCol k row = (row, false) := by
  simp [normCol, h]

theorem snapshot_nonempty_after (inferred_snapshot : String) (row : RowDict)
    (hi : inferred_snapshot ≠ "") :
    cellOut (rget (updateRow inferred_snapshot row).1 "snapshot_taken_at_utc") ≠ "" := by
  rw [updateRow_rget_snapshot]
  by_cases hf : pyFalsy (pyGet row "snapshot_taken_at_utc") = true
  · simp [hf, hi, cellOut]
  · simp only [hf, false_and, if_false]
    cases hg : rget row "snapshot_taken_at_utc" with
    | none => simp [pyFalsy, pyGet, hg] at hf
    | some v =>
      cases v with
      | none => simp [pyFalsy, pyGet, hg] at hf
      | some s =>
        have hs : s ≠ "" := by
          intro he
          rw [he] at hg
          simp [pyFalsy, pyGet, hg] at hf
        simpa [cellOut] using hs

theorem updateRow_stable (inferred_snapshot : String) (fns : List String) (row : RowDict)
    (h1 : "snapshot_taken_at_utc" ∈ fns) (h2 : "api_snapshot_timestamp_utc" ∈ fns)
    (h3 : "response_received_at_utc" ∈ fns) (h4 : "bookmaker_last_update_utc" ∈ fns) :
    updateRow inferred_snapshot (normalizeRow fns (updateRow inferred_snapshot row).1)
      = (normalizeRow fns (updateRow inferred_snapshot row).1, false) := by
  set row1 := (updateRow inferred_snapshot row).1 with hrow1
  have hs : snapshotStep inferred_snapshot (normalizeRow fns row1)
      = (normalizeRow fns row1, false) := by
    unfold snapshotStep
    by_cases hi : inferred_snapshot = ""
    · simp [hi]
    · have hcell := snapshot_nonempty_after inferred_snapshot row hi
      rw [← hrow1] at hcell
      have hget : rget (normalizeRow fns row1) "snapshot_taken_at_utc"
          = some (some (cellOut (rget row1 "snapshot_taken_at_utc"))) := by
        rw [rget_normalizeRow]
        simp [h1]
      simp [pyGet, pyFalsy, hget, hcell]
  have ha := normCol_stable "api_snapshot_timestamp_utc" (normalizeRow fns row1)
    (cellOut (rget row1 "api_snapshot_timestamp_utc"))
    (by rw [rget_normalizeRow]; simp [h2])
  have hb := normCol_stable "response_received_at_utc" (normalizeRow fns row1)
    (cellOut (rget row1 "response_received_at_utc"))
    (by rw [rget_normalizeRow]; simp [h3])
  have hc := normCol_stable "bookmaker_last_update_utc" (normalizeRow fns row1)
    (cellOut (rget row1 "bookmaker_last_update_utc"))
    (by rw [rget_normalizeRow]; simp [h4])
  show updateRow inferred_snapshot (normalizeRow fns row1) = (normalizeRow fns row1, false)
  simp only [updateRow, hs, ha, hb, hc, Bool.or_false]

theorem process_file_dry (f : CsvFile) (p : List String) (h : Nat) :
    (process_file f p h true).1 = f := by
  cases hh : f.header with
  | none => simp [process_file, hh]
  | some fns0 =>
    by_cases hr : f.rows.isEmpty <;> simp [process_file, hh, hr]

theorem process_file_unchanged (f : CsvFile) (p : List String) (h : Nat) (dr : Bool)
    (hc : (process_file f p h dr).2.1 = false) :
    (process_file f p h dr).1 = f := by
  cases hh : f.header with
  | none => simp [process_file, hh]
  | some fns0 =>
    by_cases hr : f.rows.isEmpty
    · by_cases hb : (addCols TIMESTAMP_COLUMNS fns0).2 = true
      · exfalso
        cases dr <;> simp [process_file, hh, hr, hb] at hc
      · simp [process_file, hh, hr, hb]
    · by_cases hb : ((addCols TIMESTAMP_COLUMNS fns0).2
          || (f.rows.map (updateRow (infer_snapshot_timestamp p h))).any (fun q => q.2)) = true
      · exfalso
        cases dr <;> simp [process_file, hh, hr, hb] at hc
      · simp [process_file, hh, hr, hb]

theorem process_file_header_done (p : List String) (h : Nat) (d2 : Bool) (fns : List String)
    (hmem : ∀ c ∈ TIMESTAMP_COLUMNS, c ∈ fns) :
    process_file ⟨some fns, []⟩ p h d2 = (⟨some fns, []⟩, false, "already up to date") := by
  simp [process_file, addCols_of_mem TIMESTAMP_COLUMNS fns hmem]

theorem process_file_rows_done (p : List String) (h : Nat) (d2 : Bool) (fns : List String)
    (rows : List RowDict) (hne : rows ≠ [])
    (hmem : ∀ c ∈ TIMESTAMP_COLUMNS, c ∈ fns)
    (hstab : ∀ r ∈ rows, updateRow (infer_snapshot_timestamp p h) r = (r, false)) :
    process_file ⟨some fns, rows⟩ p h d2 = (⟨some fns, rows⟩, false, "already up to date") := by
  have hany : (rows.map (updateRow (infer_snapshot_timestamp p h))).any (fun q => q.2)
      = false := by
    rw [List.any_eq_false]
    intro q hq
    rcases List.mem_map.1 hq with ⟨r, hrm, hre⟩
    rw [hstab r hrm] at hre
    rw [← hre]
    simp
  simp [process_file, addCols_of_mem TIMESTAMP_COLUMNS fns hmem, hne, hany]

theorem process_file_first_empty_changed (f : CsvFile) (p : List String) (h : Nat)
    (fns0 : List String) (hh : f.header = some fns0) (hr : f.rows = [])
    (hb : (addCols TIMESTAMP_COLUMNS fns0).2 = true) :
    process_file f p h false
      = (⟨some (addCols TIMESTAMP_COLUMNS fns0).1, []⟩, true, "header-only update") := by
  simp [process_file, hh, hr, hb, writeCsv]

theorem process_file_first_empty_unchanged (f : CsvFile) (p : List String) (h : Nat)
    (fns0 : List String) (hh : f.header = some fns0) (hr : f.rows = [])
    (hb : (addCols TIMESTAMP_COLUMNS fns0).2 = false) (dr : Bool) :
    process_file f p h dr = (f, false, "already up to date") := by
  simp [process_file, hh, hr, hb]

theorem process_file_first_rows_changed (f : CsvFile) (p : List String) (h : Nat)
    (fns0 : List String) (hh : f.header = some fns0) (hr : ¬f.rows = [])
    (hb : ((addCols TIMESTAMP_COLUMNS fns0).2
        || (f.rows.map (updateRow (infer_snapshot_timestamp p h))).any (fun q => q.2)) = true) :
    process_file f p h false
      = (writeCsv (addCols TIMESTAMP_COLUMNS fns0).1
          ((f.rows.map (updateRow (infer_snapshot_timestamp p h))).map (fun q => q.1)),
         true, "updated") := by
  simp [process_file, hh, hr, hb]

theorem process_file_first_rows_unchanged (f : CsvFile) (p : List String) (h : Nat)
    (fns0 : List String) (hh : f.header = some fns0) (hr : ¬f.rows = [])
    (hb : ((addCols TIMESTAMP_COLUMNS fns0).2
        || (f.rows.map (updateRow (infer_snapshot_timestamp p h))).any (fun q => q.2)) = false)
    (dr : Bool) :
    process_file f p h dr = (f, false, "already up to date") := by
  simp [process_file, hh, hr, hb]

theorem process_file_second (f : CsvFile) (p : List String) (h : Nat) (fns0 : List String)
    (hh : f.header = some fns0) (d2 : Bool) :
    process_file (process_file f p h false).1 p h d2
      = ((process_file f p h false).1, false, "already up to date") := by
  have hmem : ∀ c ∈ TIMESTAMP_COLUMNS, c ∈ (addCols TIMESTAMP_COLUMNS fns0).1 :=
    fun c hc => addCols_mem_new TIMESTAMP_COLUMNS fns0 c hc
  by_cases hr : f.rows = []
  · by_cases hb : (addCols TIMESTAMP_COLUMNS fns0).2 = true
    · rw [process_file_first_empty_changed f p h fns0 hh hr hb]
      exact process_file_header_done p h d2 _ hmem
    · have hb2 : (addCols TIMESTAMP_COLUMNS fns0).2 = false := by
        cases hx : (addCols TIMESTAMP_COLUMNS fns0).2
        · rfl
        · exact absurd hx hb
      rw [process_file_first_empty_unchanged f p h fns0 hh hr hb2 false]
      exact process_file_first_empty_unchanged f p h fns0 hh hr hb2 d2
  · by_cases hb : ((addCols TIMESTAMP_COLUMNS fns0).2
        || (f.rows.map (updateRow (infer_snapshot_timestamp p h))).any (fun q => q.2)) = true
    · rw [process_file_first_rows_changed f p h fns0 hh hr hb]
      show process_file
        ⟨some (addCols TIMESTAMP_COLUMNS fns0).1,
          (((f.rows.map (updateRow (infer_snapshot_timestamp p h))).map (fun q => q.1)).map
            (normalizeRow (addCols TIMESTAMP_COLUMNS fns0).1))⟩ p h d2 = _
      refine process_file_rows_done p h d2 _ _ ?_ hmem ?_
      · simp [hr]
      · intro r hrm
        simp only [List.map_map, List.mem_map, Function.comp] at hrm
        obtain ⟨r0, hr0, hre⟩ := hrm
        rw [← hre]
        exact updateRow_stable (infer_snapshot_timestamp p h) _ r0
          (hmem _ (by simp [TIMESTAMP_COLUMNS])) (hmem _ (by simp [TIMESTAMP_COLUMNS]))
          (hmem _ (by simp [TIMESTAMP_COLUMNS])) (hmem _ (by simp [TIMESTAMP_COLUMNS]))
    · have hb2 : ((addCols TIMESTAMP_COLUMNS fns0).2
          || (f.rows.map (updateRow (infer_snapshot_timestamp p h))).any (fun q => q.2))
          = false := by
        cases hx : ((addCols TIMESTAMP_COLUMNS fns0).2
            || (f.rows.map (updateRow (infer_snapshot_timestamp p h))).any (fun q => q.2))
        · rfl
        · exact absurd hx hb
      rw [process_file_first_rows_unchanged f p h fns0 hh hr hb2 false]
      exact process_file_first_rows_unchanged f p h fns0 hh hr hb2 d2

/-- C6 (amended): for every CSV file that has a header row, backfill is
idempotent — a second run on the result of a first (non-dry) run returns
`changed = false` with reason `already up to date` and leaves the file
untouched; moreover the file is rewritten only when the `changed` flag is
set, and never on a dry run.  The original claim's "for every CSV file"
fails on a headerless (empty) file, whose second run reports
`empty/no header` instead; see the counterexample. -/
theorem C6_idempotent_backfill (f : CsvFile) (pathParts : List String)
    (historical_hour_utc : Nat) (d2 : Bool) (fns0 : List String)
    (hh : f.header = some fns0) :
    process_file (process_file f pathParts historical_hour_utc false).1 pathParts
        historical_hour_utc d2
      = ((process_file f pathParts historical_hour_utc false).1, false, "already up to date")
    ∧ (process_file f pathParts historical_hour_utc true).1 = f
    ∧ ((process_file f pathParts historical_hour_utc d2).2.1 = false →
        (process_file f pathParts historical_hour_utc d2).1 = f) :=
  ⟨process_file_second f pathParts historical_hour_utc fns0 hh d2,
   process_file_dry f pathParts historical_hour_utc,
   process_file_unchanged f pathParts historical_hour_utc d2⟩

/-- Witness for C6: a one-row file whose header lacks all four timestamp
columns; after the first backfill run, the second run reports
`already up to date`, returns `changed = false`, and does not write. -/
theorem C6_idempotent_backfill_witness :
    process_file (process_file ⟨some ["date"], [[("date", some "2024-01-05")]]⟩
        ["odds-data", "odds_2024-01-05.csv"] 17 false).1
        ["odds-data", "odds_2024-01-05.csv"] 17 false
      = ((process_file ⟨some ["date"], [[("date", some "2024-01-05")]]⟩
          ["odds-data", "odds_2024-01-05.csv"] 17 false).1, false, "already up to date") :=
  (C6_idempotent_backfill ⟨some ["date"], [[("date", some "2024-01-05")]]⟩
    ["odds-data", "odds_2024-01-05.csv"] 17 false ["date"] rfl).1

/-- Counterexample to C6 as stated: on a headerless (empty) CSV file the
second run returns reason `empty/no header`, not `already up to date`
(nothing is changed or written, but the claimed reason string is wrong for
this input). -/
theorem C6_idempotent_backfill_cex :
    (process_file (process_file ⟨none, []⟩ ["odds_2024-01-05.csv"] 17 false).1
        ["odds_2024-01-05.csv"] 17 false).2.2 ≠ "already up to date"
    ∧ (process_file (process_file ⟨none, []⟩ ["odds_2024-01-05.csv"] 17 false).1
        ["odds_2024-01-05.csv"] 17 false).2.2 = "empty/no header" :=
  ⟨by decide, by decide⟩

end OddsRepo
